import Mathlib

/-!
# ocrserver: a shallow embedding of `main.go`

The server has one source file.  This development embeds

* `loadConfiguration` (environment → `Configuration`),
* `supportedLanguages` and the language resolution inside `ocrHandler`,
* `ocrHandler` itself, as a pure function from a request, the behaviour of the
  OCR engine and the configured size to the HTTP response together with the
  trace of calls made on the engine.

Go strings are modelled as Lean strings (sequences of Unicode code points); a
byte that is not part of a valid UTF-8 encoding is read by Go's string
functions as U+FFFD and is represented here by that code point.  Go's `int` is
the 64-bit integer type.  The Go standard library and gosseract are not part of
the repository: the pieces the handler calls are modelled after their
documentation, each in a definition that says so.
-/

namespace OcrServer

deriving instance DecidableEq for Except

/-! ## Constants -/

def defaultPort : String := "8080"
def defaultLanguage : String := "eng"
def defaultTimeout : Int := 30
def defaultMaxSize : Int := 10

/-- Supported languages map (`var supportedLanguages = map[string]string{...}`),
as an association list with distinct keys. -/
def supportedLanguages : List (String × String) :=
  [ ("english", "eng"),
    ("german", "deu"),
    ("french", "fra"),
    ("italian", "ita"),
    ("eng", "eng"),
    ("deu", "deu"),
    ("fra", "fra"),
    ("ita", "ita") ]

/-- Configuration holds server settings. -/
structure Configuration where
  Port : String
  Timeout : Int
  MaxFileSize : Int
  deriving DecidableEq, Repr

/-! ## Standard library: `strconv.Atoi`, `os.Getenv` -/

/-- Value of one decimal digit byte, `none` for any other character
(`ch -= '0'; if ch > 9 { syntax error }`). -/
def digitValue (c : Char) : Option Nat :=
  if 48 ≤ c.toNat ∧ c.toNat ≤ 57 then some (c.toNat - 48) else none

/-- Digit loop of `strconv.ParseUint(s, 10, 64)` without the overflow check:
`n = n*10 + digit`, failing on the first non-digit. -/
def parseDigitsFrom : Nat → List Char → Option Nat
  | acc, [] => some acc
  | acc, c :: cs =>
    match digitValue c with
    | none => none
    | some d => parseDigitsFrom (acc * 10 + d) cs

/-- Unsigned decimal number: at least one digit, digits only. -/
def parseDigits (cs : List Char) : Option Nat :=
  match cs with
  | [] => none
  | _ :: _ => parseDigitsFrom 0 cs

/-- Go's `strconv.Atoi` for the 64-bit `int`: an optional sign `+` or `-`,
then one or more decimal digits, the value lying in `[-2^63, 2^63 - 1]`.
`none` stands for a non-nil error (syntax or range). -/
def Atoi (s : String) : Option Int :=
  match s.data with
  | [] => none
  | c :: rest =>
    if c = '-' then
      match parseDigits rest with
      | none => none
      | some un => if un > 2 ^ 63 then none else some (-(un : Int))
    else
      match parseDigits (if c = '+' then rest else c :: rest) with
      | none => none
      | some un => if un ≥ 2 ^ 63 then none else some (un : Int)

/-- The process environment: `none` for a variable that is not set. -/
abbrev Environ := String → Option String

/-- Go's `os.Getenv`: the value of the variable, empty when it is not set. -/
def Getenv (env : Environ) (key : String) : String :=
  (env key).getD ""

/-! ## `loadConfiguration` -/

/-- The timeout block of `loadConfiguration` (lines 79-87): the value and the
log lines written (`log.Printf` on a value that does not parse). -/
def loadTimeout (env : Environ) : Int × List String :=
  let timeoutStr := Getenv env "OCR_TIMEOUT"
  if timeoutStr ≠ "" then
    match Atoi timeoutStr with
    | some t => (t, [])
    | none =>
      (defaultTimeout,
        ["Invalid timeout value: " ++ timeoutStr ++ ", using default: 30 seconds"])
  else (defaultTimeout, [])

/-- The max file size block of `loadConfiguration` (lines 89-97): the value and
the log lines written. -/
def loadMaxSize (env : Environ) : Int × List String :=
  let maxSizeStr := Getenv env "OCR_MAX_FILE_SIZE"
  if maxSizeStr ≠ "" then
    match Atoi maxSizeStr with
    | some size => (size, [])
    | none =>
      (defaultMaxSize,
        ["Invalid max file size value: " ++ maxSizeStr ++ ", using default: 10 MB"])
  else (defaultMaxSize, [])

/-- The function `loadConfiguration` of `main.go` together with the lines it logs. -/
def loadConfigurationLogged (env : Environ) : Configuration × List String :=
  let port := if Getenv env "PORT" = "" then defaultPort else Getenv env "PORT"
  let timeout := loadTimeout env
  let maxSize := loadMaxSize env
  ({ Port := port, Timeout := timeout.1, MaxFileSize := maxSize.1 },
    timeout.2 ++ maxSize.2)

/-- The function `loadConfiguration` of `main.go`: loads configuration from
environment variables. -/
def loadConfiguration (env : Environ) : Configuration :=
  (loadConfigurationLogged env).1

/-! ## Standard library: `strings.ToLower` -/

/-- Go's `unicode.ToLower`: the ASCII letters `A`..`Z` move to `a`..`z`, the
other ASCII characters stay, and a character above U+007F is mapped by the
Unicode case tables of the standard library, here the parameter `table`. -/
def unicodeToLower (table : Char → Char) (r : Char) : Char :=
  if r.toNat ≤ 127 then
    (if 65 ≤ r.toNat ∧ r.toNat ≤ 90 then Char.ofNat (r.toNat + 32) else r)
  else table r

/-- Go's `strings.ToLower`: every character mapped by `unicode.ToLower`. -/
def ToLower (table : Char → Char) (s : String) : String :=
  String.mk (s.data.map (unicodeToLower table))

/-! ## Standard library: the multipart form of a request -/

/-- A sequence of bytes. -/
abbrev Bytes := List (Fin 256)

/-- What opening and reading a stored file part gives (`FileHeader.Open`,
`io.ReadAll`). -/
inductive FileAccess where
  | ok
  | openError
  | readError
  deriving DecidableEq, Repr

/-- One part of a `multipart/form-data` body: a value (no file name) or a file. -/
inductive Part where
  | value (name : String) (data : String)
  | file (name : String) (content : Bytes) (access : FileAccess)
  deriving DecidableEq, Repr

/-- A `POST /ocr` request as the handler's library calls see it. -/
structure Request where
  /-- The URL query parameters in order (`url.ParseQuery(r.URL.RawQuery)`). -/
  query : List (String × String)
  /-- The error of parsing the URL query, if any. -/
  queryErr : Option String
  /-- The parts of the body in order, or the error with which the multipart
  reader rejects the body (wrong content type, malformed part, too many parts,
  a temporary file that cannot be written). -/
  body : Except String (List Part)

/-- Number of payload bytes in the parts of a body; the body on the wire is at
least this long (boundaries and part headers come on top). -/
def payloadSize : List Part → Nat
  | [] => 0
  | .value _ data :: ps => data.utf8ByteSize + payloadSize ps
  | .file _ content _ :: ps => content.length + payloadSize ps

/-- Memory accounting of `mime/multipart.(*Reader).ReadForm(maxMemory)`, after
its documentation: "It stores up to maxMemory bytes + 10MB (reserved for
non-file parts) in memory.  File parts which can't be stored in memory will be
stored on disk in temporary files.  It returns ErrMessageTooLarge if all
non-file parts can't be stored in memory."  `fileBudget` is what is left of
`maxMemory` for file contents, `budget` what is left of the whole allowance.
The result is `false` when the library answers `ErrMessageTooLarge`.  Only the
payload bytes are charged: the bookkeeping that the library adds for each part
(its name, its headers, a fixed overhead) is left out, so a form that parses in
the library parses here. -/
def readFormFits : Int → Int → List Part → Bool
  | _, _, [] => true
  | fileBudget, budget, .value _ data :: ps =>
    if budget - (data.utf8ByteSize : Int) < 0 then false
    else readFormFits fileBudget (budget - (data.utf8ByteSize : Int)) ps
  | fileBudget, budget, .file _ content _ :: ps =>
    if (content.length : Int) > fileBudget then
      -- written to a temporary file; no memory is charged
      readFormFits fileBudget budget ps
    else
      readFormFits (fileBudget - (content.length : Int)) (budget - (content.length : Int)) ps

/-- A Go `int64` result: the integer wrapped to 64 bits, two's complement. -/
def wrapInt64 (x : Int) : Int :=
  (x + 2 ^ 63) % 2 ^ 64 - 2 ^ 63

/-- The allowance of `ReadForm` for file contents: `maxMemory`, one less when it
is the largest `int64`. -/
def readFormFileAllowance (maxMemory : Int) : Int :=
  if maxMemory = 2 ^ 63 - 1 then maxMemory - 1 else maxMemory

/-- The whole allowance of `ReadForm`: `maxMemory + 10<<20`, and when that is
not positive, `0` for a negative `maxMemory` and the largest `int64` otherwise. -/
def readFormAllowance (maxMemory : Int) : Int :=
  if wrapInt64 (maxMemory + 10 * 2 ^ 20) ≤ 0 then (if maxMemory < 0 then 0 else 2 ^ 63 - 1)
  else wrapInt64 (maxMemory + 10 * 2 ^ 20)

/-- Go's `(*http.Request).ParseMultipartForm(maxMemory)`: "The whole request
body is parsed and up to a total of maxMemory bytes of its file parts are
stored in memory, with the remainder stored on disk in temporary files."
The result is the error, `none` on success.  An error of the URL query is
returned after the body has been parsed. -/
def ParseMultipartForm (r : Request) (maxMemory : Int) : Option String :=
  match r.body with
  | .error e => some e
  | .ok parts =>
    if readFormFits (readFormFileAllowance maxMemory) (readFormAllowance maxMemory) parts then
      r.queryErr
    else some "multipart: message too large"

/-- The value fields of the multipart body (the parts without a file name), in
order. -/
def bodyValues (r : Request) : List (String × String) :=
  match r.body with
  | .error _ => []
  | .ok parts =>
    parts.filterMap (fun p =>
      match p with
      | .value name data => some (name, data)
      | .file _ _ _ => none)

/-- The values of `r.Form` after a successful parse: the URL query parameters,
then the value parts of the body. -/
def formValues (r : Request) : List (String × String) :=
  r.query ++ bodyValues r

/-- Go's `(*http.Request).FormValue(key)`: the first value for the key in
`r.Form`, empty when there is none. -/
def FormValue (r : Request) (key : String) : String :=
  ((formValues r).lookup key).getD ""

/-- The first file part of the body stored under the key, if any. -/
def firstFile (key : String) : List Part → Option (Bytes × FileAccess)
  | [] => none
  | .value _ _ :: ps => firstFile key ps
  | .file name content access :: ps =>
    if name = key then some (content, access) else firstFile key ps

/-- Go's `(*http.Request).FormFile(key)`: opens the first file stored under the
key; `none` is a non-nil error (`http.ErrMissingFile`, or the error of `Open`). -/
def FormFile (r : Request) (key : String) : Option (Bytes × FileAccess) :=
  match r.body with
  | .error _ => none
  | .ok parts =>
    match firstFile key parts with
    | none => none
    | some (content, access) => if access = FileAccess.openError then none else some (content, access)

/-- Go's `io.ReadAll` on the opened file: all its bytes, or `none` for an error. -/
def ReadAll (file : Bytes × FileAccess) : Option Bytes :=
  if file.2 = FileAccess.readError then none else some file.1

/-! ## The OCR engine (gosseract) and the response -/

/-- Behaviour of the gosseract client during one request: the error of
`SetLanguage` and of `SetImageFromBytes` (`none` for success), and the result of
`Text` for the language and image that were set. -/
structure Engine where
  SetLanguage : String → Option String
  SetImageFromBytes : Bytes → Option String
  Text : String → Bytes → Except String String

/-- Calls the handler makes on resources it holds, in the order made. -/
inductive Event where
  | NewClient
  | SetLanguage (code : String)
  | SetImageFromBytes (image : Bytes)
  | Text
  | ClientClose
  | FileClose
  deriving DecidableEq, Repr

/-- What the handler writes to the `http.ResponseWriter`. -/
structure Response where
  status : Nat
  header : List (String × String)
  body : String
  deriving DecidableEq, Repr

def StatusOK : Nat := 200
def StatusBadRequest : Nat := 400
def StatusInternalServerError : Nat := 500

/-- Go's `http.Error(w, error, code)`: plain-text content type, the status and
the message followed by a newline. -/
def httpError (error : String) (code : Nat) : Response :=
  { status := code
    header := [("Content-Type", "text/plain; charset=utf-8"),
               ("X-Content-Type-Options", "nosniff")]
    body := error ++ "\n" }

/-- Result of one run of the handler: the response and the calls made. -/
structure Outcome where
  response : Response
  events : List Event
  deriving DecidableEq, Repr

/-! ## `ocrHandler` -/

/-- Go's `int64(maxSizeMB) << 20`: the product with `2^20`, wrapped to 64 bits. -/
def shiftLeft20 (maxSizeMB : Int) : Int :=
  wrapInt64 (maxSizeMB * 2 ^ 20)

/-- The failure of the language resolution. -/
inductive LanguageError where
  | UnsupportedLanguage
  deriving DecidableEq, Repr

/-- The language block of `ocrHandler` (lines 129-139): lowercase the form
value, default to English when it is empty, otherwise look it up in
`supportedLanguages`. -/
def resolveLanguage (table : Char → Char) (formValue : String) :
    Except LanguageError String :=
  let lang := ToLower table formValue
  if lang ≠ "" then
    match supportedLanguages.lookup lang with
    | some code => .ok code
    | none => .error LanguageError.UnsupportedLanguage
  else .ok defaultLanguage

/-- The engine part of `ocrHandler` (lines 141-168), entered with the deferred
`file.Close()` pending: the client is created, its `Close` deferred, and the
three engine calls run in order, each ending the handler on failure.  The
deferred calls run when the handler returns, last deferred first. -/
def runEngine (engine : Engine) (tesseractLang : String) (fileBytes : Bytes) : Outcome :=
  match engine.SetLanguage tesseractLang with
  | some err =>
    { response := httpError ("Failed to set language: " ++ err) StatusInternalServerError
      events := [Event.NewClient, Event.SetLanguage tesseractLang,
                 Event.ClientClose, Event.FileClose] }
  | none =>
    match engine.SetImageFromBytes fileBytes with
    | some err =>
      { response := httpError ("Failed to load image: " ++ err) StatusInternalServerError
        events := [Event.NewClient, Event.SetLanguage tesseractLang,
                   Event.SetImageFromBytes fileBytes, Event.ClientClose, Event.FileClose] }
    | none =>
      match engine.Text tesseractLang fileBytes with
      | .error err =>
        { response := httpError ("OCR processing failed: " ++ err) StatusInternalServerError
          events := [Event.NewClient, Event.SetLanguage tesseractLang,
                     Event.SetImageFromBytes fileBytes, Event.Text,
                     Event.ClientClose, Event.FileClose] }
      | .ok text =>
        { response :=
            { status := StatusOK, header := [("Content-Type", "text/plain")], body := text }
          events := [Event.NewClient, Event.SetLanguage tesseractLang,
                     Event.SetImageFromBytes fileBytes, Event.Text,
                     Event.ClientClose, Event.FileClose] }

/-- The function `ocrHandler` of `main.go`. -/
def ocrHandler (table : Char → Char) (engine : Engine) (r : Request) (maxSizeMB : Int) :
    Outcome :=
  match ParseMultipartForm r (shiftLeft20 maxSizeMB) with
  | some err =>
    { response := httpError ("Failed to parse form: " ++ err) StatusBadRequest, events := [] }
  | none =>
    match FormFile r "file" with
    | none => { response := httpError "No file provided" StatusBadRequest, events := [] }
    | some file =>
      match ReadAll file with
      | none =>
        { response := httpError "Failed to read file" StatusInternalServerError
          events := [Event.FileClose] }
      | some fileBytes =>
        match resolveLanguage table (FormValue r "lang") with
        | .error _ =>
          { response :=
              httpError
                "Unsupported language. Supported languages: english, german, french, italian"
                StatusBadRequest
            events := [Event.FileClose] }
        | .ok tesseractLang => runEngine engine tesseractLang fileBytes

/-- The text `sub` occurs in the text `s`. -/
def Contains (s sub : String) : Prop := sub.data <:+: s.data

instance (s sub : String) : Decidable (Contains s sub) := by
  unfold Contains; infer_instance

/-- Number of times an event occurs in a trace. -/
def occurrences (e : Event) (events : List Event) : Nat := events.count e

/-! ## Notions used to state the properties -/

/-- The text `s` is a decimal text of the integer `n`: an optional sign, then
the decimal digits `ds` of the absolute value, most significant first (at least
one digit). -/
def DecimalText (s : String) (n : Int) : Prop :=
  ∃ ds : List Nat, ds ≠ [] ∧ (∀ d ∈ ds, d < 10) ∧
    ((s.data = ds.map Nat.digitChar ∧ n = (Nat.ofDigits 10 ds.reverse : Nat)) ∨
     (s.data = '+' :: ds.map Nat.digitChar ∧ n = (Nat.ofDigits 10 ds.reverse : Nat)) ∨
     (s.data = '-' :: ds.map Nat.digitChar ∧ n = -((Nat.ofDigits 10 ds.reverse : Nat) : Int)))

/-- Two characters are equal or the upper-case and lower-case form of one ASCII
letter. -/
def sameAsciiLetter (x y : Char) : Prop :=
  x = y ∨ (65 ≤ x.toNat ∧ x.toNat ≤ 90 ∧ y.toNat = x.toNat + 32) ∨
    (65 ≤ y.toNat ∧ y.toNat ≤ 90 ∧ x.toNat = y.toNat + 32)

/-- Two texts are equal up to letter case: they have the same lower-case form
under `strings.ToLower`. -/
def EqualUpToCase (table : Char → Char) (a b : String) : Prop :=
  ToLower table a = ToLower table b

instance (table : Char → Char) (a b : String) : Decidable (EqualUpToCase table a b) := by
  unfold EqualUpToCase; infer_instance

/-! ## Sample inputs -/

/-- An environment with a valid timeout and an upload size that is not a number. -/
def sampleEnviron : Environ := fun key =>
  if key = "OCR_MAX_FILE_SIZE" then some "not-a-number"
  else if key = "OCR_TIMEOUT" then some "15"
  else none

/-- An environment with a negative timeout, a zero upload size and a port. -/
def permissiveEnviron : Environ := fun key =>
  if key = "OCR_TIMEOUT" then some "-5"
  else if key = "OCR_MAX_FILE_SIZE" then some "0"
  else if key = "PORT" then some "9090"
  else none

/-- The identity on the non-ASCII characters, as a case table. -/
def identityTable : Char → Char := fun c => c

/-- An engine on which every call succeeds; the text keeps its blanks. -/
def workingEngine : Engine :=
  { SetLanguage := fun _ => none
    SetImageFromBytes := fun _ => none
    Text := fun _ _ => .ok " Hello \n" }

/-- An engine that rejects the language. -/
def languageFailingEngine : Engine :=
  { SetLanguage := fun _ => some "no language data"
    SetImageFromBytes := fun _ => none
    Text := fun _ _ => .ok "text" }

/-- An engine that rejects the image. -/
def imageFailingEngine : Engine :=
  { SetLanguage := fun _ => none
    SetImageFromBytes := fun _ => some "not an image"
    Text := fun _ _ => .ok "text" }

/-- An engine that fails in the recognition. -/
def textFailingEngine : Engine :=
  { SetLanguage := fun _ => none
    SetImageFromBytes := fun _ => none
    Text := fun _ _ => .error "recognition failed" }

/-- A request with a three-byte file and no `lang` field. -/
def plainRequest : Request :=
  { query := [], queryErr := none, body := .ok [Part.file "file" [1, 2, 3] FileAccess.ok] }

/-- A request with a file and `lang=GerMan`. -/
def germanRequest : Request :=
  { query := [], queryErr := none
    body := .ok [Part.file "file" [1, 2, 3] FileAccess.ok, Part.value "lang" "GerMan"] }

/-- A request with a file and `lang=klingon`. -/
def klingonRequest : Request :=
  { query := [], queryErr := none
    body := .ok [Part.file "file" [1, 2, 3] FileAccess.ok, Part.value "lang" "klingon"] }

/-- A request with `lang=klingon` and no file. -/
def noFileRequest : Request :=
  { query := [], queryErr := none, body := .ok [Part.value "lang" "klingon"] }

/-- A request to `/ocr?lang=german` with a file and no `lang` field in the body. -/
def queryLangRequest : Request :=
  { query := [("lang", "german")], queryErr := none
    body := .ok [Part.file "file" [1, 2, 3] FileAccess.ok] }

/-- A request whose body is one file of 2 MiB. -/
def oversizedRequest : Request :=
  { query := [], queryErr := none
    body := .ok [Part.file "file" (List.replicate 2097152 0) FileAccess.ok] }

/-! ## Lemmas on the library models -/

theorem digitValue_digitChar (d : Nat) (h : d < 10) : digitValue (Nat.digitChar d) = some d := by
  have key : ∀ d : Fin 10, digitValue (Nat.digitChar d.val) = some d.val := by decide
  exact key ⟨d, h⟩

theorem parseDigitsFrom_digits (ds : List Nat) (h : ∀ d ∈ ds, d < 10) (acc : Nat) :
    parseDigitsFrom acc (ds.map Nat.digitChar)
      = some (acc * 10 ^ ds.length + Nat.ofDigits 10 ds.reverse) := by
  induction ds generalizing acc with
  | nil => simp [parseDigitsFrom]
  | cons d ds ih =>
    have hd : d < 10 := h d (List.mem_cons_self _ _)
    have hds : ∀ x ∈ ds, x < 10 := fun x hx => h x (List.mem_cons_of_mem _ hx)
    simp only [List.map_cons, parseDigitsFrom, digitValue_digitChar d hd, ih hds,
      List.reverse_cons, Nat.ofDigits_append, List.length_reverse, List.length_cons,
      Nat.ofDigits_singleton]
    congr 1
    ring

theorem parseDigits_digits (ds : List Nat) (hne : ds ≠ []) (h : ∀ d ∈ ds, d < 10) :
    parseDigits (ds.map Nat.digitChar) = some (Nat.ofDigits 10 ds.reverse) := by
  cases ds with
  | nil => exact absurd rfl hne
  | cons d ds =>
    have := parseDigitsFrom_digits (d :: ds) h 0
    simpa [parseDigits] using this

theorem digitChar_not_sign (d : Nat) (h : d < 10) :
    Nat.digitChar d ≠ '-' ∧ Nat.digitChar d ≠ '+' := by
  have key : ∀ d : Fin 10, Nat.digitChar d.val ≠ '-' ∧ Nat.digitChar d.val ≠ '+' := by decide
  exact key ⟨d, h⟩

/-- `strconv.Atoi` reads every decimal text of an integer in the range of `int`. -/
theorem Atoi_decimalText (s : String) (n : Int) (h : DecimalText s n)
    (hlo : -(2 ^ 63) ≤ n) (hhi : n < 2 ^ 63) : Atoi s = some n := by
  obtain ⟨ds, hne, hdig, h | h | h⟩ := h
  · obtain ⟨hs, hn⟩ := h
    cases ds with
    | nil => exact absurd rfl hne
    | cons d ds =>
      have hd := digitChar_not_sign d (hdig d (List.mem_cons_self _ _))
      have hp := parseDigits_digits (d :: ds) hne hdig
      simp only [List.map_cons] at hs hp
      have hlt : ¬ (Nat.ofDigits 10 (d :: ds).reverse ≥ 2 ^ 63) := by
        generalize Nat.ofDigits 10 (d :: ds).reverse = v at hn
        omega
      simp only [Atoi, hs, hd.1, hd.2, if_false, hp, hlt, hn]
  · obtain ⟨hs, hn⟩ := h
    have hp := parseDigits_digits ds hne hdig
    have hlt : ¬ (Nat.ofDigits 10 ds.reverse ≥ 2 ^ 63) := by
      generalize Nat.ofDigits 10 ds.reverse = v at hn
      omega
    have hc : ¬ ('+' = '-') := by decide
    simp only [Atoi, hs, hc, if_false, if_true, hp, hlt, hn]
  · obtain ⟨hs, hn⟩ := h
    have hp := parseDigits_digits ds hne hdig
    have hle : ¬ (Nat.ofDigits 10 ds.reverse > 2 ^ 63) := by
      generalize Nat.ofDigits 10 ds.reverse = v at hn
      omega
    simp only [Atoi, hs, if_true, hp, hle, if_false, hn]

theorem DecimalText_ne_empty (s : String) (n : Int) (h : DecimalText s n) : s ≠ "" := by
  obtain ⟨ds, hne, _, h | h | h⟩ := h
  · intro hs
    cases ds with
    | nil => exact hne rfl
    | cons d ds => rw [hs] at h; simp at h
  · intro hs; rw [hs] at h; simp at h
  · intro hs; rw [hs] at h; simp at h

theorem toDigitsCore_digits (fuel : Nat) : ∀ (n : Nat) (ds : List Char), n < fuel → n ≠ 0 →
    Nat.toDigitsCore 10 fuel n ds = ((Nat.digits 10 n).reverse.map Nat.digitChar) ++ ds := by
  induction fuel with
  | zero => intro n ds h; omega
  | succ fuel ih =>
    intro n ds hlt hne
    have hpos : 0 < n := Nat.pos_of_ne_zero hne
    rw [Nat.digits_def' (by decide) hpos]
    simp only [Nat.toDigitsCore]
    by_cases h0 : n / 10 = 0
    · simp [h0]
    · have hlt2 : n / 10 < fuel := by omega
      simp only [h0, if_false]
      rw [ih (n / 10) _ hlt2 h0]
      simp

theorem toDigits_digits (n : Nat) (hne : n ≠ 0) :
    Nat.toDigits 10 n = (Nat.digits 10 n).reverse.map Nat.digitChar := by
  unfold Nat.toDigits
  rw [toDigitsCore_digits (n + 1) n [] (by omega) hne]
  simp

/-- The decimal rendering of a natural number is a list of digit characters
whose value is the number. -/
theorem repr_digits (n : Nat) :
    ∃ ds : List Nat, ds ≠ [] ∧ (∀ d ∈ ds, d < 10) ∧
      (Nat.repr n).data = ds.map Nat.digitChar ∧ Nat.ofDigits 10 ds.reverse = n := by
  by_cases hne : n = 0
  · subst hne
    exact ⟨[0], by decide, by decide, by decide, by norm_num [Nat.ofDigits]⟩
  · refine ⟨(Nat.digits 10 n).reverse, ?_, ?_, ?_, ?_⟩
    · intro hnil
      exact Nat.digits_ne_nil_iff_ne_zero.mpr hne (List.reverse_eq_nil_iff.mp hnil)
    · intro d hd
      exact Nat.digits_lt_base (by decide) (List.mem_reverse.mp hd)
    · simp only [Nat.repr, List.asString, toDigits_digits n hne]
    · rw [List.reverse_reverse, Nat.ofDigits_digits]

/-- The usual rendering of an integer is a decimal text of it. -/
theorem DecimalText_toString (n : Int) : DecimalText (toString n) n := by
  cases n with
  | ofNat m =>
    obtain ⟨ds, hne, hlt, hdata, hval⟩ := repr_digits m
    refine ⟨ds, hne, hlt, Or.inl ⟨hdata, ?_⟩⟩
    rw [hval]; rfl
  | negSucc m =>
    obtain ⟨ds, hne, hlt, hdata, hval⟩ := repr_digits (m + 1)
    refine ⟨ds, hne, hlt, Or.inr (Or.inr ⟨?_, ?_⟩)⟩
    · show ("-" ++ Nat.repr (m + 1)).data = _
      rw [← hdata]; rfl
    · rw [hval]; rfl

/-! ## `loadConfiguration` -/

theorem loadConfiguration_Timeout (env : Environ) :
    (loadConfiguration env).Timeout = (loadTimeout env).1 := rfl

theorem loadConfiguration_MaxFileSize (env : Environ) :
    (loadConfiguration env).MaxFileSize = (loadMaxSize env).1 := rfl

theorem loadTimeout_default (env : Environ)
    (h : env "OCR_TIMEOUT" = none ∨ env "OCR_TIMEOUT" = some "" ∨
      ∃ s, env "OCR_TIMEOUT" = some s ∧ Atoi s = none) :
    (loadTimeout env).1 = 30 := by
  unfold loadTimeout
  rcases h with h | h | ⟨s, h, hs⟩
  · simp [Getenv, h, defaultTimeout]
  · simp [Getenv, h, defaultTimeout]
  · simp only [Getenv, h, Option.getD_some, hs]
    split <;> rfl

theorem loadMaxSize_default (env : Environ)
    (h : env "OCR_MAX_FILE_SIZE" = none ∨ env "OCR_MAX_FILE_SIZE" = some "" ∨
      ∃ s, env "OCR_MAX_FILE_SIZE" = some s ∧ Atoi s = none) :
    (loadMaxSize env).1 = 10 := by
  unfold loadMaxSize
  rcases h with h | h | ⟨s, h, hs⟩
  · simp [Getenv, h, defaultMaxSize]
  · simp [Getenv, h, defaultMaxSize]
  · simp only [Getenv, h, Option.getD_some, hs]
    split <;> rfl

theorem loadTimeout_parsed (env : Environ) (s : String) (n : Int)
    (h : env "OCR_TIMEOUT" = some s) (hs : s ≠ "") (hn : Atoi s = some n) :
    (loadTimeout env).1 = n := by
  simp [loadTimeout, Getenv, h, hs, hn]

theorem loadMaxSize_parsed (env : Environ) (s : String) (n : Int)
    (h : env "OCR_MAX_FILE_SIZE" = some s) (hs : s ≠ "") (hn : Atoi s = some n) :
    (loadMaxSize env).1 = n := by
  simp [loadMaxSize, Getenv, h, hs, hn]

/-- C8: for every environment `loadConfiguration` yields a configuration, and
when `OCR_TIMEOUT` (respectively `OCR_MAX_FILE_SIZE`) is unset, empty or a text
that `strconv.Atoi` does not parse, such as `not-a-number`, the `Timeout` is the
default 30 (respectively the `MaxFileSize` is the default 10); each of the two
depends on its own variable only. -/
theorem loadConfiguration_falls_back_to_defaults (env : Environ) :
    (∃ c : Configuration, loadConfiguration env = c) ∧
    ((env "OCR_TIMEOUT" = none ∨ env "OCR_TIMEOUT" = some "" ∨
        ∃ s, env "OCR_TIMEOUT" = some s ∧ Atoi s = none) →
      (loadConfiguration env).Timeout = 30) ∧
    ((env "OCR_MAX_FILE_SIZE" = none ∨ env "OCR_MAX_FILE_SIZE" = some "" ∨
        ∃ s, env "OCR_MAX_FILE_SIZE" = some s ∧ Atoi s = none) →
      (loadConfiguration env).MaxFileSize = 10) ∧
    Atoi "not-a-number" = none ∧
    (∀ other : Environ, other "OCR_TIMEOUT" = env "OCR_TIMEOUT" →
      (loadConfiguration other).Timeout = (loadConfiguration env).Timeout) ∧
    (∀ other : Environ, other "OCR_MAX_FILE_SIZE" = env "OCR_MAX_FILE_SIZE" →
      (loadConfiguration other).MaxFileSize = (loadConfiguration env).MaxFileSize) := by
  refine ⟨⟨_, rfl⟩, ?_, ?_, by decide, ?_, ?_⟩
  · intro h
    rw [loadConfiguration_Timeout]
    exact loadTimeout_default env h
  · intro h
    rw [loadConfiguration_MaxFileSize]
    exact loadMaxSize_default env h
  · intro other h
    simp only [loadConfiguration_Timeout, loadTimeout, Getenv, h]
  · intro other h
    simp only [loadConfiguration_MaxFileSize, loadMaxSize, Getenv, h]

/-- C8 at `OCR_MAX_FILE_SIZE=not-a-number`, `OCR_TIMEOUT=15`, `PORT` unset. -/
theorem loadConfiguration_falls_back_to_defaults_witness :
    sampleEnviron "OCR_MAX_FILE_SIZE" = some "not-a-number" ∧
    Atoi "not-a-number" = none ∧
    (loadConfiguration sampleEnviron).MaxFileSize = 10 ∧
    (loadConfiguration sampleEnviron).Timeout = 15 :=
  ⟨by decide, by decide,
   (loadConfiguration_falls_back_to_defaults sampleEnviron).2.2.1
     (Or.inr (Or.inr ⟨"not-a-number", by decide, by decide⟩)),
   by decide⟩

/-- C9 as stated fails: `9223372036854775808` is the decimal text of the integer
`2^63`, and with `OCR_TIMEOUT` set to it the `Timeout` is the default 30. -/
theorem timeout_beyond_int_range_is_not_stored :
    toString (9223372036854775808 : Int) = "9223372036854775808" ∧
    DecimalText "9223372036854775808" 9223372036854775808 ∧
    (loadConfiguration
      (fun key => if key = "OCR_TIMEOUT" then some "9223372036854775808" else none)).Timeout
      = 30 ∧
    (30 : Int) ≠ 9223372036854775808 := by
  refine ⟨rfl, ⟨[9, 2, 2, 3, 3, 7, 2, 0, 3, 6, 8, 5, 4, 7, 7, 5, 8, 0, 8], by decide, by decide,
    Or.inl ⟨by decide, by norm_num [Nat.ofDigits]⟩⟩, by decide, by decide⟩

/-- C9, amended: no bound is checked beyond the range of `int`.  Every
`OCR_TIMEOUT` or `OCR_MAX_FILE_SIZE` value that is a decimal text of an integer
`n` with `-2^63 ≤ n < 2^63`, zero and negative `n` included, gives exactly `n`;
every non-empty `PORT` is stored unchanged, and an unset or empty `PORT` gives
`8080`.  The last two parts state the same for the usual rendering of `n`. -/
theorem loadConfiguration_stores_overrides (env : Environ) :
    (∀ s n, env "OCR_TIMEOUT" = some s → DecimalText s n → -(2 ^ 63) ≤ n → n < 2 ^ 63 →
      (loadConfiguration env).Timeout = n) ∧
    (∀ s n, env "OCR_MAX_FILE_SIZE" = some s → DecimalText s n → -(2 ^ 63) ≤ n → n < 2 ^ 63 →
      (loadConfiguration env).MaxFileSize = n) ∧
    (∀ p, env "PORT" = some p → p ≠ "" → (loadConfiguration env).Port = p) ∧
    ((env "PORT" = none ∨ env "PORT" = some "") → (loadConfiguration env).Port = "8080") ∧
    (∀ n : Int, env "OCR_TIMEOUT" = some (toString n) → -(2 ^ 63) ≤ n → n < 2 ^ 63 →
      (loadConfiguration env).Timeout = n) ∧
    (∀ n : Int, env "OCR_MAX_FILE_SIZE" = some (toString n) → -(2 ^ 63) ≤ n → n < 2 ^ 63 →
      (loadConfiguration env).MaxFileSize = n) := by
  have hT : ∀ s n, env "OCR_TIMEOUT" = some s → DecimalText s n → -(2 ^ 63) ≤ n → n < 2 ^ 63 →
      (loadConfiguration env).Timeout = n := by
    intro s n h hd hlo hhi
    rw [loadConfiguration_Timeout]
    exact loadTimeout_parsed env s n h (DecimalText_ne_empty s n hd)
      (Atoi_decimalText s n hd hlo hhi)
  have hM : ∀ s n, env "OCR_MAX_FILE_SIZE" = some s → DecimalText s n → -(2 ^ 63) ≤ n →
      n < 2 ^ 63 → (loadConfiguration env).MaxFileSize = n := by
    intro s n h hd hlo hhi
    rw [loadConfiguration_MaxFileSize]
    exact loadMaxSize_parsed env s n h (DecimalText_ne_empty s n hd)
      (Atoi_decimalText s n hd hlo hhi)
  refine ⟨hT, hM, ?_, ?_, fun n h hlo hhi => hT _ n h (DecimalText_toString n) hlo hhi,
    fun n h hlo hhi => hM _ n h (DecimalText_toString n) hlo hhi⟩
  · intro p h hp
    simp [loadConfiguration, loadConfigurationLogged, Getenv, h, hp]
  · intro h
    rcases h with h | h <;> simp [loadConfiguration, loadConfigurationLogged, Getenv, h, defaultPort]

/-- C9, amended, at `OCR_TIMEOUT=-5`, `OCR_MAX_FILE_SIZE=0`, `PORT=9090`. -/
theorem loadConfiguration_stores_overrides_witness :
    DecimalText "-5" (-5) ∧ DecimalText "0" 0 ∧
    (loadConfiguration permissiveEnviron).Timeout = -5 ∧
    (loadConfiguration permissiveEnviron).MaxFileSize = 0 ∧
    (loadConfiguration permissiveEnviron).Port = "9090" :=
  have h5 : DecimalText "-5" (-5) :=
    ⟨[5], by decide, by decide, Or.inr (Or.inr ⟨by decide, by norm_num [Nat.ofDigits]⟩)⟩
  have h0 : DecimalText "0" 0 :=
    ⟨[0], by decide, by decide, Or.inl ⟨by decide, by norm_num [Nat.ofDigits]⟩⟩
  ⟨h5, h0,
   (loadConfiguration_stores_overrides permissiveEnviron).1 "-5" (-5) (by decide) h5
     (by decide) (by decide),
   (loadConfiguration_stores_overrides permissiveEnviron).2.1 "0" 0 (by decide) h0
     (by decide) (by decide),
   (loadConfiguration_stores_overrides permissiveEnviron).2.2.1 "9090" (by decide) (by decide)⟩

/-! ## Language resolution -/

theorem ToLower_ne_empty (table : Char → Char) (s : String) (h : s ≠ "") :
    ToLower table s ≠ "" := by
  intro hl
  apply h
  have hd : (ToLower table s).data = [] := by rw [hl]
  simp only [ToLower, List.map_eq_nil_iff] at hd
  exact String.ext hd

theorem ToLower_names (table : Char → Char) :
    ToLower table "english" = "english" ∧ ToLower table "german" = "german" ∧
    ToLower table "french" = "french" ∧ ToLower table "italian" = "italian" ∧
    ToLower table "eng" = "eng" ∧ ToLower table "deu" = "deu" ∧
    ToLower table "fra" = "fra" ∧ ToLower table "ita" = "ita" :=
  ⟨rfl, rfl, rfl, rfl, rfl, rfl, rfl, rfl⟩

theorem unicodeToLower_upper (table : Char → Char) (x y : Char)
    (hlo : 65 ≤ x.toNat) (hhi : x.toNat ≤ 90) (hy : y.toNat = x.toNat + 32) :
    unicodeToLower table x = unicodeToLower table y := by
  have hx : unicodeToLower table x = Char.ofNat (x.toNat + 32) := by
    have h127 : x.toNat ≤ 127 := by omega
    simp [unicodeToLower, h127, hlo, hhi]
  have hy2 : unicodeToLower table y = y := by
    have h127 : y.toNat ≤ 127 := by omega
    have hnu : ¬ (65 ≤ y.toNat ∧ y.toNat ≤ 90) := by omega
    simp [unicodeToLower, h127, hnu]
  rw [hx, hy2, ← hy, Char.ofNat_toNat]

theorem unicodeToLower_sameAsciiLetter (table : Char → Char) (x y : Char)
    (h : sameAsciiLetter x y) : unicodeToLower table x = unicodeToLower table y := by
  rcases h with h | ⟨h1, h2, h3⟩ | ⟨h1, h2, h3⟩
  · rw [h]
  · exact unicodeToLower_upper table x y h1 h2 h3
  · exact (unicodeToLower_upper table y x h1 h2 h3).symm

/-- Texts that differ in the case of ASCII letters only are equal up to letter
case, whatever the case table does above U+007F. -/
theorem EqualUpToCase_of_sameAsciiLetter (table : Char → Char) (a b : String)
    (h : List.Forall₂ sameAsciiLetter a.data b.data) : EqualUpToCase table a b := by
  have hmap : ∀ (xs ys : List Char), List.Forall₂ sameAsciiLetter xs ys →
      xs.map (unicodeToLower table) = ys.map (unicodeToLower table) := by
    intro xs ys hxy
    induction hxy with
    | nil => rfl
    | cons hc _ ih => simp [unicodeToLower_sameAsciiLetter table _ _ hc, ih]
  simp only [EqualUpToCase, ToLower, hmap _ _ h]

theorem resolveLanguage_of_lookup (table : Char → Char) (token code : String)
    (hne : ToLower table token ≠ "")
    (h : supportedLanguages.lookup (ToLower table token) = some code) :
    resolveLanguage table token = .ok code := by
  simp [resolveLanguage, hne, h]

theorem resolveLanguage_of_lookup_none (table : Char → Char) (token : String)
    (hne : ToLower table token ≠ "")
    (h : supportedLanguages.lookup (ToLower table token) = none) :
    resolveLanguage table token = .error LanguageError.UnsupportedLanguage := by
  simp [resolveLanguage, hne, h]

theorem resolveLanguage_of_lower (table : Char → Char) (token name code : String)
    (hname : ToLower table name = name) (hne : name ≠ "")
    (hcode : supportedLanguages.lookup name = some code)
    (h : EqualUpToCase table token name) :
    resolveLanguage table token = .ok code := by
  have hl : ToLower table token = name := by rw [← hname]; exact h
  apply resolveLanguage_of_lookup
  · rw [hl]; exact hne
  · rw [hl]; exact hcode

/-- C1: the language resolution of `ocrHandler` gives `eng` for every token equal
to `english` or `eng` up to letter case, `deu` for `german` or `deu`, `fra` for
`french` or `fra`, `ita` for `italian` or `ita`; every other non-empty token
fails with the unsupported-language error.  Equality up to letter case holds in
particular between texts that differ in the case of ASCII letters only. -/
theorem resolveLanguage_supported (table : Char → Char) (token : String) :
    ((EqualUpToCase table token "english" ∨ EqualUpToCase table token "eng") →
      resolveLanguage table token = .ok "eng") ∧
    ((EqualUpToCase table token "german" ∨ EqualUpToCase table token "deu") →
      resolveLanguage table token = .ok "deu") ∧
    ((EqualUpToCase table token "french" ∨ EqualUpToCase table token "fra") →
      resolveLanguage table token = .ok "fra") ∧
    ((EqualUpToCase table token "italian" ∨ EqualUpToCase table token "ita") →
      resolveLanguage table token = .ok "ita") ∧
    (token ≠ "" →
      (∀ name ∈ ["english", "german", "french", "italian", "eng", "deu", "fra", "ita"],
        ¬ EqualUpToCase table token name) →
      resolveLanguage table token = .error LanguageError.UnsupportedLanguage) ∧
    (∀ name : String, List.Forall₂ sameAsciiLetter token.data name.data →
      EqualUpToCase table token name) := by
  obtain ⟨h1, h2, h3, h4, h5, h6, h7, h8⟩ := ToLower_names table
  refine ⟨?_, ?_, ?_, ?_, ?_, fun name h => EqualUpToCase_of_sameAsciiLetter table token name h⟩
  · rintro (h | h)
    · exact resolveLanguage_of_lower table token _ _ h1 (by decide) (by decide) h
    · exact resolveLanguage_of_lower table token _ _ h5 (by decide) (by decide) h
  · rintro (h | h)
    · exact resolveLanguage_of_lower table token _ _ h2 (by decide) (by decide) h
    · exact resolveLanguage_of_lower table token _ _ h6 (by decide) (by decide) h
  · rintro (h | h)
    · exact resolveLanguage_of_lower table token _ _ h3 (by decide) (by decide) h
    · exact resolveLanguage_of_lower table token _ _ h7 (by decide) (by decide) h
  · rintro (h | h)
    · exact resolveLanguage_of_lower table token _ _ h4 (by decide) (by decide) h
    · exact resolveLanguage_of_lower table token _ _ h8 (by decide) (by decide) h
  · intro hne hother
    apply resolveLanguage_of_lookup_none table token (ToLower_ne_empty table token hne)
    have hk : ∀ name ∈ ["english", "german", "french", "italian", "eng", "deu", "fra", "ita"],
        ToLower table name = name := by
      intro name hmem
      simp only [List.mem_cons, List.mem_singleton, List.not_mem_nil, or_false] at hmem
      rcases hmem with h | h | h | h | h | h | h | h <;> subst h <;> assumption
    rw [List.lookup_eq_none_iff]
    intro p hp
    simp only [supportedLanguages, List.mem_cons, List.mem_singleton, List.not_mem_nil,
      or_false] at hp
    have hmem : p.1 ∈ ["english", "german", "french", "italian", "eng", "deu", "fra", "ita"] := by
      rcases hp with h | h | h | h | h | h | h | h <;> subst h <;> decide
    have hneq := hother p.1 hmem
    simp only [EqualUpToCase, hk p.1 hmem] at hneq
    simpa using hneq

/-- C1 at `GerMan` (resolves to `deu`) and at `klingon` (rejected). -/
theorem resolveLanguage_supported_witness :
    EqualUpToCase identityTable "GerMan" "german" ∧
    resolveLanguage identityTable "GerMan" = .ok "deu" ∧
    resolveLanguage identityTable "klingon" = .error LanguageError.UnsupportedLanguage :=
  ⟨by decide,
   (resolveLanguage_supported identityTable "GerMan").2.1 (Or.inl (by decide)),
   (resolveLanguage_supported identityTable "klingon").2.2.2.2.1 (by decide) (by decide)⟩

/-! ## `ocrHandler` -/

theorem ReadAll_ok (content : Bytes) : ReadAll (content, FileAccess.ok) = some content := by
  simp [ReadAll]

/-- A request that passes validation reaches the engine with the resolved code
and the bytes of the file. -/
theorem ocrHandler_validated (table : Char → Char) (engine : Engine) (r : Request)
    (maxSizeMB : Int) (content : Bytes) (code : String)
    (hparse : ParseMultipartForm r (shiftLeft20 maxSizeMB) = none)
    (hfile : FormFile r "file" = some (content, FileAccess.ok))
    (hlang : resolveLanguage table (FormValue r "lang") = .ok code) :
    ocrHandler table engine r maxSizeMB = runEngine engine code content := by
  simp only [ocrHandler, hparse, hfile, ReadAll_ok, hlang]

theorem FormValue_absent_or_empty (r : Request)
    (h : (formValues r).lookup "lang" = none ∨ (formValues r).lookup "lang" = some "") :
    FormValue r "lang" = "" := by
  rcases h with h | h <;> simp [FormValue, h]

/-- Without a `lang` parameter in the URL query, the `lang` form value is the
`lang` field of the body. -/
theorem formValues_lookup_of_query_none (r : Request)
    (hq : r.query.lookup "lang" = none) :
    (formValues r).lookup "lang" = (bodyValues r).lookup "lang" := by
  unfold formValues
  generalize bodyValues r = vs
  generalize r.query = qs at hq
  induction qs with
  | nil => rfl
  | cons p qs ih =>
    obtain ⟨k, v⟩ := p
    simp only [List.lookup] at hq
    simp only [List.cons_append, List.lookup]
    split at hq
    · exact absurd hq (by simp)
    · exact ih hq

/-- The traces the engine part can leave. -/
theorem runEngine_events (engine : Engine) (code : String) (content : Bytes) :
    (runEngine engine code content).events
        = [Event.NewClient, Event.SetLanguage code, Event.ClientClose, Event.FileClose] ∨
    (runEngine engine code content).events
        = [Event.NewClient, Event.SetLanguage code, Event.SetImageFromBytes content,
           Event.ClientClose, Event.FileClose] ∨
    (runEngine engine code content).events
        = [Event.NewClient, Event.SetLanguage code, Event.SetImageFromBytes content,
           Event.Text, Event.ClientClose, Event.FileClose] := by
  unfold runEngine
  split
  · exact Or.inl rfl
  · split
    · exact Or.inr (Or.inl rfl)
    · split
      · exact Or.inr (Or.inr rfl)
      · exact Or.inr (Or.inr rfl)

theorem lookup_value_mem (l : List (String × String)) (k v : String)
    (h : l.lookup k = some v) : v ∈ l.map Prod.snd := by
  induction l with
  | nil => simp [List.lookup] at h
  | cons p l ih =>
    obtain ⟨a, b⟩ := p
    simp only [List.lookup] at h
    split at h
    · simp only [Option.some.injEq] at h
      simp [h]
    · simp only [List.map_cons, List.mem_cons]
      exact Or.inr (ih h)

/-- Every resolved language is one of the four engine codes. -/
theorem resolveLanguage_code (table : Char → Char) (value code : String)
    (h : resolveLanguage table value = .ok code) :
    code ∈ ["eng", "deu", "fra", "ita"] := by
  unfold resolveLanguage at h
  simp only at h
  split at h
  · split at h
    · rename_i c hc
      have hmem := lookup_value_mem _ _ _ hc
      simp only [Except.ok.injEq] at h
      subst h
      simp only [supportedLanguages, List.map_cons, List.map_nil, List.mem_cons,
        List.mem_singleton, List.not_mem_nil, or_false] at hmem
      simp only [List.mem_cons, List.mem_singleton, List.not_mem_nil, or_false]
      tauto
    · simp at h
  · simp only [Except.ok.injEq] at h
    subst h
    decide

/-- The traces the handler can leave: nothing, the file only, or an engine run
with a resolved language code and the bytes read from the file. -/
theorem ocrHandler_events (table : Char → Char) (engine : Engine) (r : Request)
    (maxSizeMB : Int) :
    (ocrHandler table engine r maxSizeMB).events = [] ∨
    (ocrHandler table engine r maxSizeMB).events = [Event.FileClose] ∨
    ∃ code content, code ∈ ["eng", "deu", "fra", "ita"] ∧
      (ocrHandler table engine r maxSizeMB).events = (runEngine engine code content).events := by
  unfold ocrHandler
  split
  · exact Or.inl rfl
  · split
    · exact Or.inl rfl
    · split
      · exact Or.inr (Or.inl rfl)
      · split
        · exact Or.inr (Or.inl rfl)
        · rename_i code hcode
          exact Or.inr (Or.inr ⟨code, _, resolveLanguage_code table _ code hcode, rfl⟩)

/-- C2 as stated fails: at `POST /ocr?lang=german` the form parses, the file is
readable and the body has no `lang` field, yet the language set on the engine
is `deu` and `eng` is never set. -/
theorem query_lang_overrides_absent_field :
    ParseMultipartForm queryLangRequest (shiftLeft20 10) = none ∧
    FormFile queryLangRequest "file" = some ([1, 2, 3], FileAccess.ok) ∧
    (bodyValues queryLangRequest).lookup "lang" = none ∧
    FormValue queryLangRequest "lang" = "german" ∧
    (ocrHandler identityTable workingEngine queryLangRequest 10).events
      = [Event.NewClient, Event.SetLanguage "deu", Event.SetImageFromBytes [1, 2, 3],
         Event.Text, Event.ClientClose, Event.FileClose] ∧
    Event.SetLanguage "eng"
      ∉ (ocrHandler identityTable workingEngine queryLangRequest 10).events := by
  have hrun : ocrHandler identityTable workingEngine queryLangRequest 10
      = runEngine workingEngine "deu" [1, 2, 3] :=
    ocrHandler_validated identityTable workingEngine queryLangRequest 10 [1, 2, 3] "deu"
      (by decide) (by decide) (by decide)
  refine ⟨by decide, by decide, by decide, by decide, ?_, ?_⟩
  · rw [hrun]; rfl
  · rw [hrun]
    simp [runEngine, workingEngine]

/-- C2, amended: a request whose form parses, with a readable file field `file`
and a `lang` form value that is absent or empty as `r.FormValue` reads it (the
first `lang` among the URL query parameters followed by the value fields of the
body), sets the language `eng` and no other, loads exactly the bytes of the
file, and when the engine returns the text `t` the response is 200 with
`Content-Type: text/plain` and body `t`. -/
theorem ocrHandler_default_language (table : Char → Char) (engine : Engine) (r : Request)
    (maxSizeMB : Int) (content : Bytes)
    (hparse : ParseMultipartForm r (shiftLeft20 maxSizeMB) = none)
    (hfile : FormFile r "file" = some (content, FileAccess.ok))
    (hlang : (formValues r).lookup "lang" = none ∨ (formValues r).lookup "lang" = some "") :
    Event.SetLanguage "eng" ∈ (ocrHandler table engine r maxSizeMB).events ∧
    (∀ code, Event.SetLanguage code ∈ (ocrHandler table engine r maxSizeMB).events →
      code = "eng") ∧
    (∀ image, Event.SetImageFromBytes image ∈ (ocrHandler table engine r maxSizeMB).events →
      image = content) ∧
    (∀ t, engine.SetLanguage "eng" = none → engine.SetImageFromBytes content = none →
      engine.Text "eng" content = .ok t →
      (ocrHandler table engine r maxSizeMB).response
        = { status := 200, header := [("Content-Type", "text/plain")], body := t } ∧
      (ocrHandler table engine r maxSizeMB).events
        = [Event.NewClient, Event.SetLanguage "eng", Event.SetImageFromBytes content,
           Event.Text, Event.ClientClose, Event.FileClose]) := by
  have hres : resolveLanguage table (FormValue r "lang") = .ok "eng" := by
    rw [FormValue_absent_or_empty r hlang]; rfl
  rw [ocrHandler_validated table engine r maxSizeMB content "eng" hparse hfile hres]
  refine ⟨?_, ?_, ?_, ?_⟩
  · rcases runEngine_events engine "eng" content with h | h | h <;> rw [h] <;> simp
  · intro code hmem
    rcases runEngine_events engine "eng" content with h | h | h <;> rw [h] at hmem <;>
      simpa using hmem
  · intro image hmem
    rcases runEngine_events engine "eng" content with h | h | h <;> rw [h] at hmem <;>
      simp at hmem <;> exact hmem
  · intro t h1 h2 h3
    simp [runEngine, h1, h2, h3, StatusOK]

/-- C2, amended, at a request with the file bytes 1, 2, 3, no query and no
`lang` field. -/
theorem ocrHandler_default_language_witness :
    (ocrHandler identityTable workingEngine plainRequest 10).response
        = { status := 200, header := [("Content-Type", "text/plain")], body := " Hello \n" } ∧
    (ocrHandler identityTable workingEngine plainRequest 10).events
        = [Event.NewClient, Event.SetLanguage "eng", Event.SetImageFromBytes [1, 2, 3],
           Event.Text, Event.ClientClose, Event.FileClose] :=
  (ocrHandler_default_language identityTable workingEngine plainRequest 10 [1, 2, 3]
    (by decide) (by decide) (Or.inl (by decide))).2.2.2 " Hello \n" rfl rfl rfl

theorem firstFile_none (parts : List Part)
    (h : ∀ content access, Part.file "file" content access ∉ parts) : firstFile "file" parts = none := by
  induction parts with
  | nil => rfl
  | cons p ps ih =>
    have hps : ∀ content access, Part.file "file" content access ∉ ps :=
      fun c access hm => h c access (List.mem_cons_of_mem _ hm)
    cases p with
    | value name data => simpa [firstFile] using ih hps
    | file name content access =>
      have hname : name ≠ "file" := by
        intro hn
        exact h content access (by rw [hn]; exact List.mem_cons_self _ _)
      simpa [firstFile, hname] using ih hps

/-- C4: a request whose form parses and has no file part named `file` is
answered with 400 and a body containing `No file provided`, whatever the `lang`
value, and the handler makes no call on the engine. -/
theorem ocrHandler_no_file (table : Char → Char) (engine : Engine) (r : Request)
    (maxSizeMB : Int)
    (hparse : ParseMultipartForm r (shiftLeft20 maxSizeMB) = none)
    (hnofile : ∀ parts, r.body = .ok parts →
      ∀ content access, Part.file "file" content access ∉ parts) :
    (ocrHandler table engine r maxSizeMB).response.status = 400 ∧
    Contains (ocrHandler table engine r maxSizeMB).response.body "No file provided" ∧
    (ocrHandler table engine r maxSizeMB).events = [] := by
  have hfile : FormFile r "file" = none := by
    unfold FormFile
    split
    · rfl
    · rename_i parts hbody
      rw [firstFile_none parts (hnofile parts hbody)]
  have hout : ocrHandler table engine r maxSizeMB
      = { response := httpError "No file provided" StatusBadRequest, events := [] } := by
    simp only [ocrHandler, hparse, hfile]
  rw [hout]
  exact ⟨rfl, ⟨[], "\n".data, rfl⟩, rfl⟩

/-- C4 at a request with `lang=klingon` and no file. -/
theorem ocrHandler_no_file_witness :
    (ocrHandler identityTable workingEngine noFileRequest 10).response.status = 400 ∧
    Contains (ocrHandler identityTable workingEngine noFileRequest 10).response.body
      "No file provided" ∧
    (ocrHandler identityTable workingEngine noFileRequest 10).events = [] :=
  ocrHandler_no_file identityTable workingEngine noFileRequest 10 (by decide)
    (by
      intro parts hbody content access hmem
      have hparts : parts = [Part.value "lang" "klingon"] := by
        have h : Except.ok parts = (Except.ok [Part.value "lang" "klingon"] : Except String _) :=
          hbody.symm
        exact (Except.ok.injEq _ _ ▸ h : parts = [Part.value "lang" "klingon"])
      rw [hparts] at hmem
      simp at hmem)

/-- C5: with a readable file and a `lang` value that is not empty and whose
lower-case form is not a key of `supportedLanguages`, the answer is 400, the
body names english, german, french and italian, and no engine session is
created. -/
theorem ocrHandler_unsupported_language (table : Char → Char) (engine : Engine) (r : Request)
    (maxSizeMB : Int) (content : Bytes)
    (hparse : ParseMultipartForm r (shiftLeft20 maxSizeMB) = none)
    (hfile : FormFile r "file" = some (content, FileAccess.ok))
    (hne : FormValue r "lang" ≠ "")
    (hkey : ToLower table (FormValue r "lang") ∉ supportedLanguages.map Prod.fst) :
    (ocrHandler table engine r maxSizeMB).response.status = 400 ∧
    (∀ name ∈ ["english", "german", "french", "italian"],
      Contains (ocrHandler table engine r maxSizeMB).response.body name) ∧
    Event.NewClient ∉ (ocrHandler table engine r maxSizeMB).events ∧
    (ocrHandler table engine r maxSizeMB).events = [Event.FileClose] := by
  have hnone : supportedLanguages.lookup (ToLower table (FormValue r "lang")) = none := by
    rw [List.lookup_eq_none_iff]
    intro p hp
    have : p.1 ≠ ToLower table (FormValue r "lang") := by
      intro heq
      exact hkey (heq ▸ List.mem_map_of_mem Prod.fst hp)
    simpa using fun h => this h.symm
  have hres := resolveLanguage_of_lookup_none table (FormValue r "lang")
    (ToLower_ne_empty table _ hne) hnone
  have hout : ocrHandler table engine r maxSizeMB
      = { response :=
            httpError
              "Unsupported language. Supported languages: english, german, french, italian"
              StatusBadRequest
          events := [Event.FileClose] } := by
    simp only [ocrHandler, hparse, hfile, ReadAll_ok, hres]
  rw [hout]
  refine ⟨rfl, ?_, by simp, rfl⟩
  intro name hname
  simp only [List.mem_cons, List.mem_singleton, List.not_mem_nil, or_false] at hname
  rcases hname with h | h | h | h <;> subst h
  · exact ⟨"Unsupported language. Supported languages: ".data,
      ", german, french, italian\n".data, rfl⟩
  · exact ⟨"Unsupported language. Supported languages: english, ".data,
      ", french, italian\n".data, rfl⟩
  · exact ⟨"Unsupported language. Supported languages: english, german, ".data,
      ", italian\n".data, rfl⟩
  · exact ⟨"Unsupported language. Supported languages: english, german, french, ".data,
      "\n".data, rfl⟩

/-- C5 at `lang=klingon`. -/
theorem ocrHandler_unsupported_language_witness :
    FormValue klingonRequest "lang" = "klingon" ∧
    (ocrHandler identityTable workingEngine klingonRequest 10).response.status = 400 ∧
    Contains (ocrHandler identityTable workingEngine klingonRequest 10).response.body
      "german" ∧
    Event.NewClient ∉ (ocrHandler identityTable workingEngine klingonRequest 10).events :=
  have h := ocrHandler_unsupported_language identityTable workingEngine klingonRequest 10
    [1, 2, 3] (by decide) (by decide) (by decide) (by decide)
  ⟨by decide, h.1, h.2.1 "german" (by decide), h.2.2.1⟩

/-- C6: for a request that passes validation, a failure of the engine at
setting the language, loading the image or extracting the text gives 500, and
the trace shows the steps in that order, each once and none after the failing
one, followed by the release of the client. -/
theorem ocrHandler_engine_failure (table : Char → Char) (engine : Engine) (r : Request)
    (maxSizeMB : Int) (content : Bytes) (code : String)
    (hparse : ParseMultipartForm r (shiftLeft20 maxSizeMB) = none)
    (hfile : FormFile r "file" = some (content, FileAccess.ok))
    (hlang : resolveLanguage table (FormValue r "lang") = .ok code) :
    (∀ err, engine.SetLanguage code = some err →
      (ocrHandler table engine r maxSizeMB).response.status = 500 ∧
      (ocrHandler table engine r maxSizeMB).events
        = [Event.NewClient, Event.SetLanguage code, Event.ClientClose, Event.FileClose]) ∧
    (∀ err, engine.SetLanguage code = none → engine.SetImageFromBytes content = some err →
      (ocrHandler table engine r maxSizeMB).response.status = 500 ∧
      (ocrHandler table engine r maxSizeMB).events
        = [Event.NewClient, Event.SetLanguage code, Event.SetImageFromBytes content,
           Event.ClientClose, Event.FileClose]) ∧
    (∀ err, engine.SetLanguage code = none → engine.SetImageFromBytes content = none →
      engine.Text code content = .error err →
      (ocrHandler table engine r maxSizeMB).response.status = 500 ∧
      (ocrHandler table engine r maxSizeMB).events
        = [Event.NewClient, Event.SetLanguage code, Event.SetImageFromBytes content,
           Event.Text, Event.ClientClose, Event.FileClose]) := by
  rw [ocrHandler_validated table engine r maxSizeMB content code hparse hfile hlang]
  refine ⟨?_, ?_, ?_⟩
  · intro err h1
    simp [runEngine, h1, httpError, StatusInternalServerError]
  · intro err h1 h2
    simp [runEngine, h1, h2, httpError, StatusInternalServerError]
  · intro err h1 h2 h3
    simp [runEngine, h1, h2, h3, httpError, StatusInternalServerError]

/-- C6 at `lang=GerMan` with an engine failing at each of the three steps. -/
theorem ocrHandler_engine_failure_witness :
    ((ocrHandler identityTable languageFailingEngine germanRequest 10).response.status = 500 ∧
      (ocrHandler identityTable languageFailingEngine germanRequest 10).events
        = [Event.NewClient, Event.SetLanguage "deu", Event.ClientClose, Event.FileClose]) ∧
    ((ocrHandler identityTable imageFailingEngine germanRequest 10).response.status = 500 ∧
      (ocrHandler identityTable imageFailingEngine germanRequest 10).events
        = [Event.NewClient, Event.SetLanguage "deu", Event.SetImageFromBytes [1, 2, 3],
           Event.ClientClose, Event.FileClose]) ∧
    ((ocrHandler identityTable textFailingEngine germanRequest 10).response.status = 500 ∧
      (ocrHandler identityTable textFailingEngine germanRequest 10).events
        = [Event.NewClient, Event.SetLanguage "deu", Event.SetImageFromBytes [1, 2, 3],
           Event.Text, Event.ClientClose, Event.FileClose]) :=
  ⟨(ocrHandler_engine_failure identityTable languageFailingEngine germanRequest 10 [1, 2, 3]
      "deu" (by decide) (by decide) (by decide)).1 "no language data" rfl,
   (ocrHandler_engine_failure identityTable imageFailingEngine germanRequest 10 [1, 2, 3]
      "deu" (by decide) (by decide) (by decide)).2.1 "not an image" rfl rfl,
   (ocrHandler_engine_failure identityTable textFailingEngine germanRequest 10 [1, 2, 3]
      "deu" (by decide) (by decide) (by decide)).2.2 "recognition failed" rfl rfl rfl⟩

/-- C7: in every run of `ocrHandler` at most one engine session is created and
it is released as often as it is created; a created session comes first among
the engine calls and its release after all of them, and a request that passes
validation creates and releases exactly one session whatever the engine does. -/
theorem ocrHandler_session_released (table : Char → Char) (engine : Engine) (r : Request)
    (maxSizeMB : Int) :
    occurrences Event.NewClient (ocrHandler table engine r maxSizeMB).events ≤ 1 ∧
    occurrences Event.ClientClose (ocrHandler table engine r maxSizeMB).events
      = occurrences Event.NewClient (ocrHandler table engine r maxSizeMB).events ∧
    (Event.NewClient ∈ (ocrHandler table engine r maxSizeMB).events →
      ∃ calls, (ocrHandler table engine r maxSizeMB).events
          = Event.NewClient :: (calls ++ [Event.ClientClose, Event.FileClose]) ∧
        Event.NewClient ∉ calls ∧ Event.ClientClose ∉ calls) ∧
    (∀ content code, ParseMultipartForm r (shiftLeft20 maxSizeMB) = none →
      FormFile r "file" = some (content, FileAccess.ok) →
      resolveLanguage table (FormValue r "lang") = .ok code →
      occurrences Event.NewClient (ocrHandler table engine r maxSizeMB).events = 1 ∧
      occurrences Event.ClientClose (ocrHandler table engine r maxSizeMB).events = 1) := by
  refine ⟨?_, ?_, ?_, ?_⟩
  · rcases ocrHandler_events table engine r maxSizeMB with h | h | ⟨code, content, _, h⟩
    · rw [h]; simp [occurrences]
    · rw [h]; simp [occurrences]
    · rw [h]
      rcases runEngine_events engine code content with h | h | h <;> rw [h] <;>
        simp [occurrences]
  · rcases ocrHandler_events table engine r maxSizeMB with h | h | ⟨code, content, _, h⟩
    · rw [h]; simp [occurrences]
    · rw [h]; simp [occurrences]
    · rw [h]
      rcases runEngine_events engine code content with h | h | h <;> rw [h] <;>
        simp [occurrences]
  · intro hmem
    rcases ocrHandler_events table engine r maxSizeMB with h | h | ⟨code, content, _, h⟩
    · rw [h] at hmem; simp at hmem
    · rw [h] at hmem; simp at hmem
    · rw [h]
      rcases runEngine_events engine code content with h | h | h <;> rw [h]
      · exact ⟨[Event.SetLanguage code], rfl, by simp, by simp⟩
      · exact ⟨[Event.SetLanguage code, Event.SetImageFromBytes content], rfl, by simp, by simp⟩
      · exact ⟨[Event.SetLanguage code, Event.SetImageFromBytes content, Event.Text], rfl,
          by simp, by simp⟩
  · intro content code hparse hfile hlang
    rw [ocrHandler_validated table engine r maxSizeMB content code hparse hfile hlang]
    rcases runEngine_events engine code content with h | h | h <;> rw [h] <;>
      simp [occurrences]

/-- C7 at a valid request, with an engine that fails at the image. -/
theorem ocrHandler_session_released_witness :
    occurrences Event.NewClient
      (ocrHandler identityTable imageFailingEngine germanRequest 10).events = 1 ∧
    occurrences Event.ClientClose
      (ocrHandler identityTable imageFailingEngine germanRequest 10).events = 1 :=
  (ocrHandler_session_released identityTable imageFailingEngine germanRequest 10).2.2.2
    [1, 2, 3] "deu" (by decide) (by decide) (by decide)

/-- C10: every language code passed to `SetLanguage` is one of `eng`, `deu`,
`fra`, `ita`, and every value of `supportedLanguages` is one of these four. -/
theorem ocrHandler_language_codes (table : Char → Char) (engine : Engine) (r : Request)
    (maxSizeMB : Int) :
    (∀ code, Event.SetLanguage code ∈ (ocrHandler table engine r maxSizeMB).events →
      code ∈ ["eng", "deu", "fra", "ita"]) ∧
    (∀ entry ∈ supportedLanguages, entry.2 ∈ ["eng", "deu", "fra", "ita"]) := by
  refine ⟨?_, by decide⟩
  intro code hmem
  rcases ocrHandler_events table engine r maxSizeMB with h | h | ⟨c, content, hc, h⟩
  · rw [h] at hmem; simp at hmem
  · rw [h] at hmem; simp at hmem
  · rw [h] at hmem
    have hcode : code = c := by
      rcases runEngine_events engine c content with h | h | h <;> rw [h] at hmem <;>
        simpa using hmem
    rw [hcode]; exact hc

/-- C10 at `lang=GerMan`: the code set on the engine is `deu`. -/
theorem ocrHandler_language_codes_witness :
    Event.SetLanguage "deu" ∈ (ocrHandler identityTable workingEngine germanRequest 10).events ∧
    "deu" ∈ ["eng", "deu", "fra", "ita"] :=
  have hmem : Event.SetLanguage "deu"
      ∈ (ocrHandler identityTable workingEngine germanRequest 10).events := by
    rw [ocrHandler_validated identityTable workingEngine germanRequest 10 [1, 2, 3] "deu"
      (by decide) (by decide) (by decide)]
    simp [runEngine, workingEngine]
  ⟨hmem, (ocrHandler_language_codes identityTable workingEngine germanRequest 10).1 "deu" hmem⟩

/-- A single file part larger than `maxMemory` is kept in a temporary file and
the form parses: the handler goes on to the engine with all of its bytes. -/
theorem ocrHandler_large_file (table : Char → Char) (engine : Engine) (content : Bytes)
    (hlen : 2 ^ 20 < content.length) :
    ocrHandler table engine
        { query := [], queryErr := none, body := .ok [Part.file "file" content FileAccess.ok] } 1
      = runEngine engine "eng" content := by
  apply ocrHandler_validated
  · have hs : shiftLeft20 1 = 2 ^ 20 := by decide
    have hf : readFormFileAllowance (2 ^ 20) = 2 ^ 20 := by decide
    have hgt : ((content.length : Nat) : Int) > 2 ^ 20 := by exact_mod_cast hlen
    simp only [ParseMultipartForm, hs, hf, readFormFits, hgt, if_true]
  · simp [FormFile, firstFile]
  · rfl

theorem runEngine_workingEngine (code : String) (content : Bytes) :
    runEngine workingEngine code content
      = { response :=
            { status := 200, header := [("Content-Type", "text/plain")], body := " Hello \n" }
          events := [Event.NewClient, Event.SetLanguage code, Event.SetImageFromBytes content,
                     Event.Text, Event.ClientClose, Event.FileClose] } := rfl

theorem payloadSize_single (name : String) (content : Bytes) (access : FileAccess) :
    payloadSize [Part.file name content access] = content.length := by
  simp [payloadSize]

/-- C3 fails on the code: with `maxSizeMB = 1` a body holding a file of 2 MiB
parses, the engine is invoked on all of the file and the answer is 200. -/
theorem oversized_upload_is_processed :
    1 * 2 ^ 20 < payloadSize [Part.file "file" (List.replicate 2097152 0) FileAccess.ok] ∧
    (ocrHandler identityTable workingEngine oversizedRequest 1).response.status = 200 ∧
    (ocrHandler identityTable workingEngine oversizedRequest 1).events
      = [Event.NewClient, Event.SetLanguage "eng",
         Event.SetImageFromBytes (List.replicate 2097152 0), Event.Text,
         Event.ClientClose, Event.FileClose] := by
  have hlen : 2 ^ 20 < (List.replicate 2097152 (0 : Fin 256)).length := by
    rw [List.length_replicate]; decide
  have h := ocrHandler_large_file identityTable workingEngine (List.replicate 2097152 0) hlen
  rw [runEngine_workingEngine] at h
  refine ⟨?_, ?_, ?_⟩
  · rw [payloadSize_single, List.length_replicate]; decide
  · unfold oversizedRequest; rw [h]
  · unfold oversizedRequest; rw [h]

end OcrServer
